import Mathlib

/-!
Shallow embedding of the EdgeNet reconciliation controllers
(src/pkg/controller/v1alpha/project/controller.go, src/unnamed/part_000,
src/unnamed/part_001, src/pkg/controller/v1alpha/team/handler.go) and of the
SelectiveDeployment CRD schema (src/config/crd/selectivedeployment.yaml),
together with theorems checking the specification's claims about them.
-/

namespace EdgeNet

/-! ## Data model

`ProjectUsers` carries the two fields the project controller's `dry` function
reads (`Site`, `Username`).  `Project` carries the two fields the project
controller's `UpdateFunc` compares (`Status.Enabled`, `Spec.Users`). -/

structure ProjectUsers where
  Site : String
  Username : String
deriving DecidableEq, Repr

structure Project where
  statusEnabled : Bool
  specUsers : List ProjectUsers
deriving DecidableEq, Repr

/-- `fields` from controller.go: which fields an Update event changed. -/
structure Fields where
  users : Bool
  enabled : Bool
deriving DecidableEq, Repr

/-- The `function` tag of an `informerevent`: the constants `create`,
`update`, `delete` of controller.go. -/
inductive EventFunction where
  | create
  | update
  | delete
deriving DecidableEq, Repr

/-- `informerevent` from controller.go: the item placed on the work queue.
It holds only the object key, the event kind and the changed-field summary;
there is no object payload. -/
structure InformerEvent where
  key : String
  function : EventFunction
  updated : Fields
deriving DecidableEq, Repr

/-! ## dry (controller.go lines 253-269) -/

/-- The string `fmt.Sprintf("%s?/delta/? %s", oldValue.Site, oldValue.Username)`
built by `dry` for a removed user. -/
def dryEntry (u : ProjectUsers) : String :=
  u.Site ++ "?/delta/? " ++ u.Username

/-- The inner loop of `dry`: does the (Site, Username) pair of `u` occur in
`l`?  Mirrors `oldValue.Site == newValue.Site && oldValue.Username ==
newValue.Username`. -/
def pairInList (u : ProjectUsers) (l : List ProjectUsers) : Bool :=
  l.any fun v => decide (u.Site = v.Site) && decide (u.Username = v.Username)

/-- `dry(oldProject, newProject)` from controller.go: for each element of the
old list whose (Site, Username) pair appears nowhere in the new list, emit the
formatted delta entry, in old-list order. -/
def dry : List ProjectUsers → List ProjectUsers → List String
  | [], _ => []
  | o :: os, newProject =>
    if pairInList o newProject then dry os newProject
    else dryEntry o :: dry os newProject

/-! ## SetNodeGeolocation (src/unnamed/part_001 lines 33-49)

`node.GetGeolocationByIP` is an external call; it is abstracted by the oracle
`lookup : String → Bool` giving the success flag the code inspects.  The
embedding returns the list of IP addresses attempted, in order. -/

def SetNodeGeolocation (lookup : String → Bool) (internalIP externalIP : String) :
    List String :=
  let result : Bool := false
  let result : Bool := if externalIP ≠ "" then lookup externalIP else result
  (if externalIP ≠ "" then [externalIP] else []) ++
    (if internalIP ≠ "" ∧ result = false then [internalIP] else [])

/-! ## processNextItem (controller.go lines 211-251; src/unnamed/part_000 lines 247-288)

The indexer's `GetByKey(key)` returns `(item, exists, err)`; it is abstracted
as `getByKey : String → CacheReply`.  The work queue's rate limiter tracks a
per-item failure count: `NumRequeues` reads it, `AddRateLimited` bumps it and
re-enqueues, `Forget` resets it to 0 (ItemExponentialFailureRateLimiter
semantics).  The embedding threads the failure-count map explicitly and records
the queue operations and handler invocations the call performs. -/

structure CacheReply where
  item : Option Project
  exist : Bool
  err : Bool
deriving DecidableEq, Repr

/-- A handler invocation performed by `processNextItem`. -/
inductive HandlerCall where
  | objectCreated (item : Option Project)
  | objectUpdated (item : Option Project) (updated : Fields)
  | objectDeleted (item : Option Project)
deriving DecidableEq, Repr

/-- The object argument of a handler invocation. -/
def HandlerCall.item : HandlerCall → Option Project
  | .objectCreated i => i
  | .objectUpdated i _ => i
  | .objectDeleted i => i

/-- Work-queue and observability operations performed by `processNextItem`. -/
inductive QueueOp where
  | addRateLimited (key : String)
  | forget (key : String)
  | handleError
deriving DecidableEq, Repr

/-- One `processNextItem` call on a dequeued `informerevent`.  Returns the
updated per-key failure counts (`NumRequeues`), the queue operations issued,
and the handler calls dispatched, in program order:
  * on `GetByKey` error: retry via `AddRateLimited(key)` while
    `NumRequeues(key) < 5`, otherwise `Forget(key)` and report via
    `utilruntime.HandleError`;
  * dispatch: a missing object is handed to `ObjectDeleted` only for a
    delete event; an existing object goes to `ObjectCreated`/`ObjectUpdated`
    by event kind (the update carries the changed-field summary);
  * finally the unconditional `c.queue.Forget(event.key)` before returning. -/
def processNextItem (getByKey : String → CacheReply) (numRequeues : String → Nat)
    (e : InformerEvent) : (String → Nat) × List QueueOp × List HandlerCall :=
  let r := getByKey e.key
  let errStep : (String → Nat) × List QueueOp :=
    if r.err then
      if numRequeues e.key < 5 then
        (fun k => if k = e.key then numRequeues k + 1 else numRequeues k,
          [QueueOp.addRateLimited e.key])
      else
        (fun k => if k = e.key then 0 else numRequeues k,
          [QueueOp.forget e.key, QueueOp.handleError])
    else (numRequeues, [])
  let calls : List HandlerCall :=
    if !r.exist then
      match e.function with
      | .delete => [HandlerCall.objectDeleted r.item]
      | _ => []
    else
      match e.function with
      | .create => [HandlerCall.objectCreated r.item]
      | .update => [HandlerCall.objectUpdated r.item e.updated]
      | .delete => []
  (fun k => if k = e.key then 0 else errStep.1 k,
    errStep.2 ++ [QueueOp.forget e.key], calls)

/-- An indexer whose `GetByKey` fails on every call (the C1 failure scenario). -/
def failingCache : String → CacheReply :=
  fun _ => { item := none, exist := false, err := true }

/-- `n` consecutive `processNextItem` attempts on an event for `key` whose
cache lookup errors every time, starting from a fresh rate limiter: the state
after attempt `n` together with all queue operations issued so far. -/
def failIter (key : String) : Nat → (String → Nat) × List QueueOp
  | 0 => (fun _ => 0, [])
  | n + 1 =>
    let prev := failIter key n
    let step := processNextItem failingCache prev.1
      { key := key, function := EventFunction.create,
        updated := { users := false, enabled := false } }
    (step.1, prev.2 ++ step.2.1)

/-! ## UpdateFunc (controller.go lines 103-119)

The informer's `UpdateFunc` computes the changed-field summary and enqueues an
`informerevent` carrying it (`MetaNamespaceKeyFunc` is abstracted as the given
key).  `reflect.DeepEqual` on the `Spec.Users` slices is list equality. -/

def updateFuncFields (oldObj newObj : Project) : Fields :=
  let enabled : Bool := if oldObj.statusEnabled ≠ newObj.statusEnabled then true else false
  let users : Bool := if oldObj.specUsers ≠ newObj.specUsers then true else false
  { users := users, enabled := enabled }

/-- The event `UpdateFunc` enqueues for an old/new object pair under `key`. -/
def updateFuncEvent (oldObj newObj : Project) (key : String) : InformerEvent :=
  { key := key, function := EventFunction.update,
    updated := updateFuncFields oldObj newObj }

/-! ## runWorker and run (controller.go lines 177-208)

`runWorker` drains the queue serially, one `processNextItem` at a time, on a
single goroutine.  `run` starts the informer, blocks on
`cache.WaitForCacheSync`, and only on success starts the worker; on failure it
reports the error and returns without dispatching anything. -/

/-- Serial worker: the handler calls dispatched for a queue of events. -/
def runWorker (getByKey : String → CacheReply) (numRequeues : String → Nat) :
    List InformerEvent → List HandlerCall
  | [] => []
  | e :: es =>
    let step := processNextItem getByKey numRequeues e
    step.2.2 ++ runWorker getByKey step.1 es

/-- Observable entries of the `run` control flow, in order. -/
inductive RunEntry where
  | syncFailed
  | syncComplete
  | dispatch (c : HandlerCall)
deriving DecidableEq, Repr

/-- `controller.run`: if `WaitForCacheSync` returns false, report and return
(no dispatch); otherwise the sync barrier completes and the worker dispatches
the queued events. -/
def run (syncOk : Bool) (getByKey : String → CacheReply)
    (events : List InformerEvent) : List RunEntry :=
  if syncOk then
    RunEntry.syncComplete ::
      (runWorker getByKey (fun _ => 0) events).map RunEntry.dispatch
  else [RunEntry.syncFailed]

/-! ## Worker with panics (C4)

Handlers return nothing; a failure inside a handler surfaces as a Go panic.
`runWorker` and `processNextItem` contain no `recover`: the only crash handler
is `defer utilruntime.HandleCrash()` on `run`'s own goroutine (which, per its
documentation, logs and then re-panics by default), while the worker runs on a
separate goroutine spawned by `wait.Until`.  An unrecovered panic therefore
terminates the worker: no later queue item is processed.  `behavior` says
whether a given handler invocation panics. -/

inductive HandlerOutcome where
  | ok
  | crash
deriving DecidableEq, Repr

/-- The worker loop when handler invocations may panic: returns the calls that
completed and whether the worker goroutine was terminated by a panic. -/
def runWorkerWithPanics (behavior : HandlerCall → HandlerOutcome)
    (getByKey : String → CacheReply) (numRequeues : String → Nat) :
    List InformerEvent → List HandlerCall × Bool
  | [] => ([], false)
  | e :: es =>
    let step := processNextItem getByKey numRequeues e
    if step.2.2.any (fun c => decide (behavior c = HandlerOutcome.crash)) then
      (step.2.2.takeWhile (fun c => !decide (behavior c = HandlerOutcome.crash)), true)
    else
      let rest := runWorkerWithPanics behavior getByKey step.1 es
      (step.2.2 ++ rest.1, rest.2)

/-! ## Serial dispatch trace (C8)

The worker's execution, with explicit begin/end marks around each queue
item's dispatch, to state that no two handler invocations overlap and that
items are dispatched in queue order. -/

inductive WorkerMark where
  | start (key : String)
  | call (c : HandlerCall)
  | finish (key : String)
deriving DecidableEq, Repr

def workerTrace (getByKey : String → CacheReply) (numRequeues : String → Nat) :
    List InformerEvent → List WorkerMark
  | [] => []
  | e :: es =>
    let step := processNextItem getByKey numRequeues e
    WorkerMark.start e.key :: (step.2.2.map WorkerMark.call ++
      (WorkerMark.finish e.key :: workerTrace getByKey step.1 es))

/-- `serialOk d t = true` when, reading the trace left to right starting with
`d` dispatches in flight, at most one dispatch is ever in flight and every
`start` is matched by its `finish` before the next `start`. -/
def serialOk : Nat → List WorkerMark → Bool
  | 0, [] => true
  | _ + 1, [] => false
  | d, .start _ :: t => if d = 0 then serialOk 1 t else false
  | d, .finish _ :: t => if d = 1 then serialOk 0 t else false
  | d, .call _ :: t => serialOk d t

/-- The keys of the `start` marks of a trace, in order. -/
def startKeys : List WorkerMark → List String
  | [] => []
  | .start k :: t => k :: startKeys t
  | .call _ :: t => startKeys t
  | .finish _ :: t => startKeys t

/-- `workqueue.Add`: an item already pending is not enqueued again. -/
def queueAdd (q : List InformerEvent) (e : InformerEvent) : List InformerEvent :=
  if e ∈ q then q else q ++ [e]

/-- The pending queue after a sequence of `Add` calls on an empty queue. -/
def queueOf (arrivals : List InformerEvent) : List InformerEvent :=
  arrivals.foldl queueAdd []

/-! ## SelectiveDeployment count (C7)

From src/config/crd/selectivedeployment.yaml: `spec.selector.count` is an
`integer` with `minimum: 0` ("0 means no limitation"). -/

/-- The openAPIV3 constraint on a clause's `count`: an integer is accepted by
the schema exactly when it is ≥ the declared `minimum: 0`. -/
def countSchemaValid (count : Int) : Bool :=
  decide (0 ≤ count)

/-- Modelled from the spec: the Node Selection Engine (`select`, spec §4.3) is
not part of the source under src/ — only the CRD schema is.  Per the spec, a
clause's candidate set is the raw match set "capped at `count` entries if
count > 0 (else unlimited)". -/
def capCandidates (count : Nat) (rawMatchSet : List String) : List String :=
  if 0 < count then rawMatchSet.take count else rawMatchSet

/-! ## Concrete instances used in witness statements -/

def projW : Project :=
  { statusEnabled := true, specUsers := [] }

def projB : Project :=
  { statusEnabled := false, specUsers := [] }

/-- A cache in which every key resolves to `projW`. -/
def cacheW : String → CacheReply :=
  fun _ => { item := some projW, exist := true, err := false }

/-- A cache from which every key is absent (and no lookup errors). -/
def absentCacheW : String → CacheReply :=
  fun _ => { item := none, exist := false, err := false }

def eventW : InformerEvent :=
  { key := "w", function := EventFunction.create,
    updated := { users := false, enabled := false } }

def deleteEventW : InformerEvent :=
  { key := "w", function := EventFunction.delete,
    updated := { users := false, enabled := false } }

/-- Cache for the panic scenario: key "a" holds `projW`, others hold `projB`. -/
def cexCache : String → CacheReply :=
  fun k =>
    if k = "a" then { item := some projW, exist := true, err := false }
    else { item := some projB, exist := true, err := false }

/-- A handler that panics exactly on the creation of `projW`. -/
def cexBehavior : HandlerCall → HandlerOutcome :=
  fun c =>
    if c = HandlerCall.objectCreated (some projW) then HandlerOutcome.crash
    else HandlerOutcome.ok

def eventA : InformerEvent :=
  { key := "a", function := EventFunction.create,
    updated := { users := false, enabled := false } }

def eventB : InformerEvent :=
  { key := "b", function := EventFunction.create,
    updated := { users := false, enabled := false } }

end EdgeNet

namespace EdgeNet

/-! ## Theorems -/

/-- Claim C9: `dry(oldProject, newProject)` returns exactly one entry,
formatted `Site ++ "?/delta/? " ++ Username`, for each element of the old list
whose (Site, Username) pair appears in no element of the new list, in
old-list order, and no entry for any element whose pair does appear. -/
theorem dry_characterization (oldProject newProject : List ProjectUsers) :
    dry oldProject newProject =
      (oldProject.filter fun o => !pairInList o newProject).map dryEntry ∧
    ∀ u : ProjectUsers, dryEntry u = u.Site ++ "?/delta/? " ++ u.Username := by
  refine ⟨?_, fun u => rfl⟩
  induction oldProject with
  | nil => rfl
  | cons o os ih =>
    simp only [dry, List.filter_cons]
    cases h : pairInList o newProject <;> simp [h, ih]

/-- Claim C2: `SetNodeGeolocation` tries the external IP first whenever it is
non-empty, and tries the internal IP exactly when the internal IP is non-empty
and external resolution did not succeed (external absent, or its lookup
returned false); when external resolution succeeds the internal IP is never
attempted. -/
theorem setNodeGeolocation_ip_preference (lookup : String → Bool)
    (internalIP externalIP : String) :
    SetNodeGeolocation lookup internalIP externalIP =
      (if externalIP ≠ "" then [externalIP] else []) ++
        (if internalIP ≠ "" ∧ (externalIP = "" ∨ lookup externalIP = false)
          then [internalIP] else []) := by
  unfold SetNodeGeolocation
  by_cases he : externalIP = "" <;> by_cases hi : internalIP = "" <;>
    simp [he, hi]

/-- Claim C7: the CRD schema accepts a selector clause's `count` exactly when
it is a non-negative integer, and (Node Selection Engine, modelled from the
spec) a clause with `count = 0` imposes no cap: all matching nodes are
returned. -/
theorem count_schema_and_unlimited_cap :
    (∀ c : Int, countSchemaValid c = true ↔ 0 ≤ c) ∧
    (∀ nodes : List String, capCandidates 0 nodes = nodes) := by
  constructor
  · intro c
    simp [countSchemaValid]
  · intro nodes
    simp [capCandidates]

/-- Claim C1 (code bug): `processNextItem` ends with an unconditional
`queue.Forget(event.key)`, which resets the rate limiter's failure count after
every attempt.  Consequently, for an event whose cache lookup fails on every
attempt, each of the `n` consecutive attempts observes `NumRequeues = 0 < 5`
and re-enqueues via `AddRateLimited`; the abandon branch (`Forget` +
`HandleError`) is never taken, contradicting the 5-attempt retry budget: the
event is retried on every failure, a 6th time and beyond. -/
theorem processNextItem_failures_never_abandoned (key : String) (n : Nat) :
    (∀ k, (failIter key n).1 k = 0) ∧
    (failIter key n).2 =
      (List.replicate n [QueueOp.addRateLimited key, QueueOp.forget key]).flatten ∧
    QueueOp.handleError ∉ (failIter key n).2 := by
  have main : (∀ k, (failIter key n).1 k = 0) ∧
      (failIter key n).2 =
        (List.replicate n [QueueOp.addRateLimited key, QueueOp.forget key]).flatten := by
    induction n with
    | zero => exact ⟨fun k => rfl, rfl⟩
    | succ m ih =>
      obtain ⟨hrl, hops⟩ := ih
      constructor
      · intro k
        simp only [failIter, processNextItem, failingCache, hrl key]
        by_cases hk : k = key <;> simp [hk, hrl k]
      · simp only [failIter, processNextItem, failingCache, hrl key]
        simp [hops, List.replicate_succ']
  refine ⟨main.1, main.2, ?_⟩
  rw [main.2]
  intro hmem
  rw [List.mem_flatten] at hmem
  obtain ⟨l, hl, hml⟩ := hmem
  rw [List.eq_of_mem_replicate hl] at hml
  simp at hml

/-- Claim C6: every handler invocation performed by `processNextItem` receives
exactly the object obtained from the local indexed cache by the event's key at
dispatch time (`GetByKey`); the queued event carries no object payload at
all. -/
theorem dispatched_object_from_cache (getByKey : String → CacheReply)
    (numRequeues : String → Nat) (e : InformerEvent) :
    ∀ c ∈ (processNextItem getByKey numRequeues e).2.2,
      c.item = (getByKey e.key).item := by
  intro c hc
  simp only [processNextItem] at hc
  cases hx : (getByKey e.key).exist <;> cases hf : e.function <;>
    simp [hx, hf] at hc <;> simp [hc, HandlerCall.item]

/-- Witness for C6 at a concrete cache and event. -/
theorem dispatched_object_from_cache_witness :
    (HandlerCall.objectCreated (some projW)).item = (cacheW "w").item :=
  dispatched_object_from_cache cacheW (fun _ => 0) eventW
    (HandlerCall.objectCreated (some projW)) (by decide)

/-- Claim C10: when a dequeued event's key is no longer in the cache (the
lookup reports absent, with a nil object), only a Delete event reaches a
handler — `ObjectDeleted` with the nil object; a Create or Update event whose
object has vanished is dropped with no handler invocation. -/
theorem vanished_object_dispatch (getByKey : String → CacheReply)
    (numRequeues : String → Nat) (e : InformerEvent)
    (habs : (getByKey e.key).exist = false)
    (hnil : (getByKey e.key).item = none) :
    (processNextItem getByKey numRequeues e).2.2 =
      match e.function with
      | EventFunction.delete => [HandlerCall.objectDeleted none]
      | _ => [] := by
  cases hf : e.function <;> simp [processNextItem, habs, hnil, hf]

/-- Witness for C10 at a concrete absent cache: a delete event dispatches
`ObjectDeleted none`. -/
theorem vanished_object_dispatch_witness :
    (processNextItem absentCacheW (fun _ => 0) deleteEventW).2.2 =
      match deleteEventW.function with
      | EventFunction.delete => [HandlerCall.objectDeleted none]
      | _ => [] :=
  vanished_object_dispatch absentCacheW (fun _ => 0) deleteEventW rfl rfl

/-- Claim C5: `UpdateFunc` computes the change summary — `enabled` is set
exactly when the old and new objects' `Status.Enabled` differ, `users` exactly
when their `Spec.Users` lists differ — and `processNextItem` passes that
summary unchanged to the handler's `ObjectUpdated`. -/
theorem update_summary_computed_and_passed (oldObj newObj : Project)
    (getByKey : String → CacheReply) (numRequeues : String → Nat) (key : String)
    (hfound : (getByKey key).exist = true) :
    ((updateFuncFields oldObj newObj).enabled = true ↔
      oldObj.statusEnabled ≠ newObj.statusEnabled) ∧
    ((updateFuncFields oldObj newObj).users = true ↔
      oldObj.specUsers ≠ newObj.specUsers) ∧
    (processNextItem getByKey numRequeues (updateFuncEvent oldObj newObj key)).2.2 =
      [HandlerCall.objectUpdated (getByKey key).item (updateFuncFields oldObj newObj)] := by
  refine ⟨?_, ?_, ?_⟩
  · by_cases h : oldObj.statusEnabled = newObj.statusEnabled <;>
      simp [updateFuncFields, h]
  · by_cases h : oldObj.specUsers = newObj.specUsers <;>
      simp [updateFuncFields, h]
  · simp [processNextItem, updateFuncEvent, hfound]

/-- Witness for C5 at concrete objects differing in `Status.Enabled` only. -/
theorem update_summary_computed_and_passed_witness :
    ((updateFuncFields projW projB).enabled = true ↔
      projW.statusEnabled ≠ projB.statusEnabled) ∧
    ((updateFuncFields projW projB).users = true ↔
      projW.specUsers ≠ projB.specUsers) ∧
    (processNextItem cacheW (fun _ => 0) (updateFuncEvent projW projB "w")).2.2 =
      [HandlerCall.objectUpdated (cacheW "w").item (updateFuncFields projW projB)] :=
  update_summary_computed_and_passed projW projB cacheW (fun _ => 0) "w" rfl

/-- Claim C3: no handler dispatch occurs before the cache-sync barrier: if
`WaitForCacheSync` fails, `run` returns having dispatched nothing, and every
dispatch entry in `run`'s trace is preceded by the `syncComplete` entry. -/
theorem no_dispatch_before_cache_sync (syncOk : Bool)
    (getByKey : String → CacheReply) (events : List InformerEvent) :
    (syncOk = false → run syncOk getByKey events = [RunEntry.syncFailed]) ∧
    ∀ (i : Nat) (c : HandlerCall),
      (run syncOk getByKey events)[i]? = some (RunEntry.dispatch c) →
      syncOk = true ∧ ∃ j : Nat, j < i ∧
        (run syncOk getByKey events)[j]? = some RunEntry.syncComplete := by
  constructor
  · intro h
    simp [run, h]
  · intro i c h
    cases syncOk with
    | false =>
      exfalso
      match i with
      | 0 => simp [run] at h
      | Nat.succ m => simp [run] at h
    | true =>
      refine ⟨rfl, 0, ?_, by simp [run]⟩
      match i with
      | 0 => simp [run] at h
      | Nat.succ m => exact Nat.succ_pos m

/-- Witness for C3: in a run with a synced cache and one queued create event,
the dispatch at index 1 is preceded by `syncComplete` at index 0. -/
theorem no_dispatch_before_cache_sync_witness :
    true = true ∧ ∃ j : Nat, j < 1 ∧
      (run true cacheW [eventW])[j]? = some RunEntry.syncComplete :=
  (no_dispatch_before_cache_sync true cacheW [eventW]).2 1
    (HandlerCall.objectCreated (some projW)) (by decide)

/-- Counterexample to claim C4: with a handler that panics on the creation of
the object under key "a", the worker terminates (`crashed = true`) and the
later event for the distinct key "b" is never dispatched — although without
the panic the same queue would have dispatched it. -/
theorem handler_panic_not_isolated_cex :
    (runWorkerWithPanics cexBehavior cexCache (fun _ => 0) [eventA, eventB]).2 = true ∧
    HandlerCall.objectCreated (some projB) ∉
      (runWorkerWithPanics cexBehavior cexCache (fun _ => 0) [eventA, eventB]).1 ∧
    HandlerCall.objectCreated (some projB) ∈
      runWorker cexCache (fun _ => 0) [eventA, eventB] := by
  decide

/-- Claim C4 as amended: a handler failure that is not a panic (such as a
cache-lookup error on every item) never terminates the worker loop — all
queued events are still processed — but a panic raised while handling one
object's event is not recovered on the worker goroutine: the worker
terminates and no later queued event is dispatched. -/
theorem handler_panic_terminates_worker
    (behavior : HandlerCall → HandlerOutcome) (getByKey : String → CacheReply)
    (numRequeues : String → Nat) (e : InformerEvent) (es : List InformerEvent)
    (hcrash : ((processNextItem getByKey numRequeues e).2.2.any
      fun c => decide (behavior c = HandlerOutcome.crash)) = true) :
    ((runWorkerWithPanics behavior getByKey numRequeues (e :: es)).2 = true ∧
      (runWorkerWithPanics behavior getByKey numRequeues (e :: es)).1 =
        (processNextItem getByKey numRequeues e).2.2.takeWhile
          (fun c => !decide (behavior c = HandlerOutcome.crash))) ∧
    ∀ (rl : String → Nat) (evs : List InformerEvent),
      runWorkerWithPanics (fun _ => HandlerOutcome.ok) failingCache rl evs =
        (runWorker failingCache rl evs, false) := by
  constructor
  · constructor <;> simp [runWorkerWithPanics, hcrash]
  · intro rl evs
    induction evs generalizing rl with
    | nil => rfl
    | cons x xs ih => simp [runWorkerWithPanics, runWorker, ih]

/-- Witness for C4's amended theorem at the concrete panic scenario. -/
theorem handler_panic_terminates_worker_witness :
    (runWorkerWithPanics cexBehavior cexCache (fun _ => 0) (eventA :: [eventB])).2 = true :=
  ((handler_panic_terminates_worker cexBehavior cexCache (fun _ => 0) eventA [eventB]
    (by decide)).1).1

/-- Handler-call marks are transparent to the serial-dispatch check. -/
theorem serialOk_map_call (cs : List HandlerCall) (d : Nat) (t : List WorkerMark) :
    serialOk d (cs.map WorkerMark.call ++ t) = serialOk d t := by
  induction cs with
  | nil => rfl
  | cons c cs ih => simpa [serialOk] using ih

/-- Handler-call marks contribute no `start` keys. -/
theorem startKeys_map_call (cs : List HandlerCall) (t : List WorkerMark) :
    startKeys (cs.map WorkerMark.call ++ t) = startKeys t := by
  induction cs with
  | nil => rfl
  | cons c cs ih => simpa [startKeys] using ih

/-- A fold of `workqueue.Add` over an arrival sequence appends, after the
already-pending items, a subsequence of the arrivals (duplicates of pending
items are coalesced, never reordered). -/
theorem foldl_queueAdd_sublist (l : List InformerEvent) :
    ∀ q : List InformerEvent,
      ∃ t, l.foldl queueAdd q = q ++ t ∧ List.Sublist t l := by
  induction l with
  | nil => exact fun q => ⟨[], by simp, List.nil_sublist _⟩
  | cons e es ih =>
    intro q
    by_cases he : e ∈ q
    · obtain ⟨t, ht, hs⟩ := ih q
      exact ⟨t, by simpa [queueAdd, he] using ht, hs.cons e⟩
    · obtain ⟨t, ht, hs⟩ := ih (q ++ [e])
      refine ⟨e :: t, ?_, hs.cons₂ e⟩
      simp only [List.foldl_cons, queueAdd, he, if_neg]
      simpa [List.append_assoc] using ht

/-- Claim C8: the single worker drains the queue serially — at no point of the
worker's trace is a second dispatch started before the previous one finished —
items are dispatched exactly in queue order (hence two events for one key are
dispatched in their enqueue order), and the pending queue built by
`workqueue.Add` preserves arrival order (coalescing only duplicates). -/
theorem same_key_dispatch_serial_in_order (getByKey : String → CacheReply)
    (numRequeues : String → Nat) (events arrivals : List InformerEvent) :
    serialOk 0 (workerTrace getByKey numRequeues events) = true ∧
    startKeys (workerTrace getByKey numRequeues events) =
      events.map InformerEvent.key ∧
    List.Sublist (queueOf arrivals) arrivals := by
  refine ⟨?_, ?_, ?_⟩
  · induction events generalizing numRequeues with
    | nil => rfl
    | cons e es ih =>
      simp [workerTrace, serialOk, serialOk_map_call, ih]
  · induction events generalizing numRequeues with
    | nil => rfl
    | cons e es ih =>
      simp [workerTrace, startKeys, startKeys_map_call, ih]
  · obtain ⟨t, ht, hs⟩ := foldl_queueAdd_sublist arrivals []
    simpa [queueOf, ht] using hs

end EdgeNet
